import Mathlib

/-!
# Verification of the studycards-generator layout / mirrored-pagination core

Shallow embedding of `src/main.py` (flashcard PDF generator).  Geometry is
modelled over `ℚ` with the centimetre as unit (the Python source multiplies
every dimension constant by ReportLab's `cm` scale factor and uses the A4
page size, 21 cm × 29.7 cm; the scale factor cancels from every relation we
study, so we work directly in centimetres).

The embedded functions mirror, line by line:
* the module-level configuration constants (`main.py` lines 23–29),
* `load_flashcards` (lines 63–96): CSV row filtering and stripping,
* `create_flashcard_page` (lines 100–135): per-record grid placement with
  back-side horizontal mirroring and the page-break condition.
-/

namespace StudyCards

/-- Module constants of `main.py` (lines 23–29), in centimetres.
`CARD_WIDTH = 6 * cm`. -/
def CARD_WIDTH : ℚ := 6

/-- `CARD_HEIGHT = 4 * cm`. -/
def CARD_HEIGHT : ℚ := 4

/-- `CARDS_PER_ROW = 3` (number of columns of the grid). -/
def CARDS_PER_ROW : Nat := 3

/-- `CARDS_PER_COL = 6` (number of rows of the grid). -/
def CARDS_PER_COL : Nat := 6

/-- `MARGIN_X = 1 * cm`. -/
def MARGIN_X : ℚ := 1

/-- `MARGIN_Y = 2 * cm`. -/
def MARGIN_Y : ℚ := 2

/-- `GAP = 0.5 * cm`. -/
def GAP : ℚ := 1/2

/-- A4 page width in cm (`width, height = A4` in `create_flashcard_page`). -/
def pageWidth : ℚ := 21

/-- A4 page height in cm. -/
def pageHeight : ℚ := 297/10

/-- `total_per_page = CARDS_PER_ROW * CARDS_PER_COL` (line 106). -/
def total_per_page : Nat := CARDS_PER_ROW * CARDS_PER_COL

/-- `idx = i % total_per_page` (line 109). -/
def localIdx (i : Nat) : Nat := i % total_per_page

/-- `row = idx // CARDS_PER_ROW` (line 110). -/
def rowOf (i : Nat) : Nat := localIdx i / CARDS_PER_ROW

/-- `col = idx % CARDS_PER_ROW` (line 111). -/
def colOf (i : Nat) : Nat := localIdx i % CARDS_PER_ROW

/-- The effective column drawn for index `i` on the given side:
`col` on the front, `mirror_col = CARDS_PER_ROW - 1 - col` on the back
(lines 114–118). -/
def effCol (isFront : Bool) (i : Nat) : Nat :=
  if isFront then colOf i else CARDS_PER_ROW - 1 - colOf i

/-- `x = MARGIN_X + col * (CARD_WIDTH + GAP)` for the front,
`x = MARGIN_X + mirror_col * (CARD_WIDTH + GAP)` for the back
(lines 115 and 118). -/
def xPos (isFront : Bool) (i : Nat) : ℚ :=
  MARGIN_X + (effCol isFront i : ℚ) * (CARD_WIDTH + GAP)

/-- `y = height - MARGIN_Y - (row + 1) * CARD_HEIGHT - row * GAP` (line 120). -/
def yPos (i : Nat) : ℚ :=
  pageHeight - MARGIN_Y - ((rowOf i : ℚ) + 1) * CARD_HEIGHT - (rowOf i : ℚ) * GAP

/-- `(i + 1) % total_per_page == 0`: the condition on line 134 deciding
whether `canv.showPage()` is called after drawing card `i`. -/
def isPageBreak (i : Nat) : Bool := (i + 1) % total_per_page == 0

/-- The bounding-box placement of record index `i` on the given side, as
computed inside the loop of `create_flashcard_page`. -/
structure Placement where
  row : Nat
  col : Nat
  x : ℚ
  y : ℚ
  deriving DecidableEq, Repr

/-- Grid placement of record index `i` on side `isFront`: the `(row, col, x, y)`
data `create_flashcard_page` computes for the card drawn at index `i`. -/
def place (isFront : Bool) (i : Nat) : Placement :=
  { row := rowOf i, col := effCol isFront i, x := xPos isFront i, y := yPos i }

/-- A flashcard record as built by `load_flashcards` (line 95):
`{"Lato A": la, "Lato B": lb, "Tag": tg}`. -/
structure Card where
  latoA : String
  latoB : String
  tag : String
  deriving DecidableEq, Repr

/-- A raw CSV data row as seen by the loop in `load_flashcards` (lines 88–91),
after the header columns have been resolved: the strings found under the
side-A column, the side-B column, and the tag column (the latter read only
when a tag column exists). -/
structure RawRow where
  latoA : String
  latoB : String
  tag : String
  deriving DecidableEq, Repr

/-- Python's `str.strip()`: remove leading and trailing whitespace. -/
def strip (s : String) : String :=
  ⟨((s.data.dropWhile Char.isWhitespace).reverse.dropWhile Char.isWhitespace).reverse⟩

/-- Body of the row loop of `load_flashcards` (lines 89–95): strip both sides,
strip the tag when the CSV has a tag column and use `""` otherwise, and skip
the row when both stripped sides are empty. -/
def loadRow (hasTag : Bool) (r : RawRow) : Option Card :=
  let la := strip r.latoA
  let lb := strip r.latoB
  let tg := if hasTag then strip r.tag else ""
  if la = "" ∧ lb = "" then none else some ⟨la, lb, tg⟩

/-- `load_flashcards` (lines 87–96): fold the row loop over the data rows,
collecting the retained cards in order. -/
def load_flashcards (hasTag : Bool) (rows : List RawRow) : List Card :=
  rows.filterMap (loadRow hasTag)

/-- The module constants of `main.py` gathered into a record.  The source
marks them user-editable ("puoi modificarle", line 22); this record lets the
drawing pass be studied at other configuration values as well. -/
structure Config where
  cardWidth : ℚ
  cardHeight : ℚ
  cardsPerRow : Nat
  cardsPerCol : Nat
  marginX : ℚ
  marginY : ℚ
  gap : ℚ
  pageW : ℚ
  pageH : ℚ
  deriving DecidableEq, Repr

/-- The configuration values hard-coded at lines 23–29 of `main.py`. -/
def defaultConfig : Config :=
  { cardWidth := 6, cardHeight := 4, cardsPerRow := 3, cardsPerCol := 6
    marginX := 1, marginY := 2, gap := 1/2, pageW := 21, pageH := 297/10 }

/-- `total_per_page` for a configuration (line 106). -/
def Config.totalPerPage (cfg : Config) : Nat := cfg.cardsPerRow * cfg.cardsPerCol

/-- Lines 109–120 of `create_flashcard_page` for a configuration. -/
def Config.place (cfg : Config) (isFront : Bool) (i : Nat) : Placement :=
  let idx := i % cfg.totalPerPage
  let row := idx / cfg.cardsPerRow
  let col := idx % cfg.cardsPerRow
  let ecol := if isFront then col else cfg.cardsPerRow - 1 - col
  { row := row
    col := ecol
    x := cfg.marginX + (ecol : ℚ) * (cfg.cardWidth + cfg.gap)
    y := cfg.pageH - cfg.marginY - ((row : ℚ) + 1) * cfg.cardHeight - (row : ℚ) * cfg.gap }

/-- Line 134's condition for a configuration. -/
def Config.pageBreakAt (cfg : Config) (i : Nat) : Bool :=
  (i + 1) % cfg.totalPerPage == 0

/-- One iteration of the drawing loop of `create_flashcard_page`: the record
drawn, the bounding box handed to `canv.rect` / `draw_text`, and whether
`canv.showPage()` runs after it. -/
structure Event where
  card : Card
  placement : Placement
  pageBreak : Bool
  deriving DecidableEq, Repr

/-- The loop of `create_flashcard_page` from loop counter `i` onwards. -/
def cfgPassFrom (cfg : Config) (isFront : Bool) : Nat → List Card → List Event
  | _, [] => []
  | i, c :: rest =>
      ⟨c, cfg.place isFront i, cfg.pageBreakAt i⟩ :: cfgPassFrom cfg isFront (i + 1) rest

/-- `create_flashcard_page` for an arbitrary configuration: the loop started
at index 0. -/
def createFlashcardPageCfg (cfg : Config) (isFront : Bool) (cards : List Card) :
    List Event :=
  cfgPassFrom cfg isFront 0 cards

/-- Embedding of `create_flashcard_page` (lines 100–135) at the module
constants: the sequence of (record, bounding box, page-break) events of one
front or back pass. -/
def create_flashcard_page (isFront : Bool) (cards : List Card) : List Event :=
  createFlashcardPageCfg defaultConfig isFront cards

/-- Modelled from the spec's Paginator contract (§4.3), with the list length
as recursion fuel: groups of `P` records in order. -/
def paginateAux (P : Nat) : Nat → List Card → List (List Card)
  | 0, _ => []
  | _ + 1, [] => []
  | fuel + 1, l => l.take P :: paginateAux P fuel (l.drop P)

/-- Modelled from the spec: `paginate(records, cardsPerPage)` partitions the
record sequence into successive groups of `cardsPerPage` records, the final
group possibly shorter. -/
def paginate (P : Nat) (records : List Card) : List (List Card) :=
  paginateAux P records.length records

/-- From the spec (§4.2): `gridWidth = columns*cardWidth + (columns-1)*gap`. -/
def gridWidth : ℚ :=
  (CARDS_PER_ROW : ℚ) * CARD_WIDTH + ((CARDS_PER_ROW : ℚ) - 1) * GAP

/-- From the spec (§4.2): `offsetX = (pageWidth - gridWidth) / 2`, the
horizontally centering offset. -/
def offsetX : ℚ := (pageWidth - gridWidth) / 2

/-- From the spec (§3): vertical grid footprint `rows*cardHeight + (rows-1)*gap`. -/
def gridHeight : ℚ :=
  (CARDS_PER_COL : ℚ) * CARD_HEIGHT + ((CARDS_PER_COL : ℚ) - 1) * GAP

/-- From the spec (§4.2): `offsetY` centers the grid vertically, symmetric to
`offsetX`. -/
def offsetY : ℚ := (pageHeight - gridHeight) / 2

/-- From the spec (§4.1): `columns = floor((pageWidth - 2*marginX + gap) /
(cardWidth + gap))`. -/
def columnsSpec : ℤ := ⌊(pageWidth - 2 * MARGIN_X + GAP) / (CARD_WIDTH + GAP)⌋

/-- From the spec (§4.1): `rows = floor((pageHeight - 2*marginY + gap) /
(cardHeight + gap))`. -/
def rowsSpec : ℤ := ⌊(pageHeight - 2 * MARGIN_Y + GAP) / (CARD_HEIGHT + GAP)⌋

end StudyCards

namespace StudyCards

/-- Sanity: placement of index 7 on the front (spec §8's concrete scenario). -/
example : place true 7 = { row := 2, col := 1, x := 15/2, y := 147/10 } := by
  simp only [place, xPos, yPos, rowOf, colOf, localIdx, effCol, total_per_page,
    CARDS_PER_ROW, CARDS_PER_COL, MARGIN_X, MARGIN_Y, GAP, CARD_WIDTH,
    CARD_HEIGHT, pageHeight, Placement.mk.injEq]
  norm_num

example : place false 7 = { row := 2, col := 1, x := 15/2, y := 147/10 } := by
  simp only [place, xPos, yPos, rowOf, colOf, localIdx, effCol, total_per_page,
    CARDS_PER_ROW, CARDS_PER_COL, MARGIN_X, MARGIN_Y, GAP, CARD_WIDTH,
    CARD_HEIGHT, pageHeight, Placement.mk.injEq]
  norm_num

example : isPageBreak 17 = true := by decide
example : isPageBreak 14 = false := by decide

/-- The module-constant placement is the configurable placement at the
hard-coded configuration. -/
theorem place_default (isFront : Bool) (i : Nat) :
    Config.place defaultConfig isFront i = place isFront i := rfl

/-- **C1.** For every record index, under the program's fixed layout
(columns = `CARDS_PER_ROW`, rows = `CARDS_PER_COL`), the front-pass and
back-pass placements of that index lie in the same row, and the front
column plus the back (mirrored) column equals `CARDS_PER_ROW - 1`. -/
theorem mirror_invariant (i : Nat) :
    (place false i).row = (place true i).row ∧
    (place true i).col + (place false i).col = CARDS_PER_ROW - 1 := by
  refine ⟨rfl, ?_⟩
  have h : localIdx i % 3 < 3 := Nat.mod_lt _ (by norm_num)
  simp [place, effCol, colOf, CARDS_PER_ROW]
  omega

/-- **C6.** For every index and side, the x coordinate the code computes from
`MARGIN_X` equals the spec's centering formula
`offsetX + effectiveCol * (cardWidth + gap)`: at the configured dimensions the
centering offset `(pageWidth - gridWidth) / 2` equals the 1 cm margin. -/
theorem x_centered (isFront : Bool) (i : Nat) :
    xPos isFront i = offsetX + (effCol isFront i : ℚ) * (CARD_WIDTH + GAP) ∧
    MARGIN_X = offsetX := by
  have h : MARGIN_X = offsetX := by
    norm_num [MARGIN_X, offsetX, gridWidth, pageWidth, CARDS_PER_ROW,
      CARD_WIDTH, GAP]
  exact ⟨by rw [xPos, h], h⟩

/-- **C3, counterexample.** The configured layout violates the footprint
invariant vertically: the 6-row grid is 26.5 cm tall while the usable height
(page height minus the 2 cm margin on both sides) is only 25.7 cm. -/
theorem footprint_exceeds_usable_height :
    ¬ (gridHeight ≤ pageHeight - 2 * MARGIN_Y) := by
  norm_num [gridHeight, pageHeight, MARGIN_Y, CARDS_PER_COL, CARD_HEIGHT, GAP]

/-- **C3, amended.** The configured layout has at least one column and row and
its horizontal footprint fits the usable width exactly, but its vertical
footprint exceeds the usable height (it still fits below the top margin, so
the last row intrudes into the bottom margin without leaving the page). -/
theorem footprint_amended :
    1 ≤ CARDS_PER_ROW ∧ 1 ≤ CARDS_PER_COL ∧
    gridWidth ≤ pageWidth - 2 * MARGIN_X ∧
    pageHeight - 2 * MARGIN_Y < gridHeight ∧
    gridHeight ≤ pageHeight - MARGIN_Y := by
  norm_num [gridWidth, gridHeight, pageWidth, pageHeight, MARGIN_X, MARGIN_Y,
    CARDS_PER_ROW, CARDS_PER_COL, CARD_WIDTH, CARD_HEIGHT, GAP]

/-- **C5, counterexample.** The layout the program uses is not the one the
claim states: the code hard-codes 6 rows (not 5) and 18 cards per page
(not 15). -/
theorem layout_not_spec_rows : CARDS_PER_COL ≠ 5 ∧ total_per_page ≠ 15 := by
  decide

/-- **C5, amended.** The program hard-codes columns = 3, rows = 6, hence 18
cards per page; the spec's floor-division formulas at the configured
dimensions give columns = 3 (matching the hard-coded value) and rows = 5
(not matching). -/
theorem layout_constants :
    CARDS_PER_ROW = 3 ∧ CARDS_PER_COL = 6 ∧ total_per_page = 18 ∧
    columnsSpec = 3 ∧ rowsSpec = 5 := by
  refine ⟨rfl, rfl, rfl, ?_, ?_⟩
  · rw [columnsSpec, Int.floor_eq_iff]
    norm_num [pageWidth, MARGIN_X, GAP, CARD_WIDTH]
  · rw [rowsSpec, Int.floor_eq_iff]
    norm_num [pageHeight, MARGIN_Y, GAP, CARD_HEIGHT]

/-- **C4, counterexample.** The vertical placement is not vertically centered:
at index 0 the code's y (23.7 cm) differs from the claimed
`pageHeight - offsetY - (row+1)*cardHeight - row*gap` with the centering
offset `offsetY = (pageHeight - gridHeight)/2 = 1.6 cm` (which gives
24.1 cm). -/
theorem y_not_centered :
    ¬ (yPos 0 = pageHeight - offsetY - ((rowOf 0 : ℚ) + 1) * CARD_HEIGHT
        - (rowOf 0 : ℚ) * GAP) := by
  have h0 : rowOf 0 = 0 := rfl
  norm_num [yPos, h0, pageHeight, offsetY, gridHeight, MARGIN_Y, CARD_HEIGHT,
    GAP, CARDS_PER_COL]

/-- **C4, amended.** The vertical position is computed top-down from the fixed
top margin: `y = pageHeight - MARGIN_Y - (row+1)*cardHeight - row*gap`, where
`MARGIN_Y` (2 cm) is not the vertical centering offset (1.6 cm); rows with
larger index lie strictly lower on the page, so row 0 is the topmost row. -/
theorem y_margin_top_down :
    (∀ i, yPos i = pageHeight - MARGIN_Y - ((rowOf i : ℚ) + 1) * CARD_HEIGHT
        - (rowOf i : ℚ) * GAP) ∧
    MARGIN_Y ≠ offsetY ∧
    (∀ i j : Nat, rowOf i < rowOf j → yPos j < yPos i) := by
  refine ⟨fun i => rfl, ?_, ?_⟩
  · norm_num [MARGIN_Y, offsetY, pageHeight, gridHeight, CARDS_PER_COL,
      CARD_HEIGHT, GAP]
  · intro i j h
    have hc : (rowOf i : ℚ) + 1 ≤ (rowOf j : ℚ) := by exact_mod_cast h
    simp only [yPos, CARD_HEIGHT, GAP, pageHeight, MARGIN_Y]
    linarith

/-- Witness for C4's amended theorem at indices 0 and 3 (rows 0 and 1). -/
theorem y_margin_top_down_witness :
    yPos 0 = pageHeight - MARGIN_Y - ((rowOf 0 : ℚ) + 1) * CARD_HEIGHT
        - (rowOf 0 : ℚ) * GAP ∧
    MARGIN_Y ≠ offsetY ∧ yPos 3 < yPos 0 :=
  ⟨y_margin_top_down.1 0, y_margin_top_down.2.1,
   y_margin_top_down.2.2 0 3 (by decide)⟩

/-! ### Lemmas about the drawing loop -/

/-- The loop emits one event per record. -/
theorem cfgPassFrom_length (cfg : Config) (isFront : Bool) (l : List Card) :
    ∀ i, (cfgPassFrom cfg isFront i l).length = l.length := by
  induction l with
  | nil => intro i; rfl
  | cons c rest ih => intro i; simp [cfgPassFrom, ih (i + 1)]

/-- The records drawn by the loop, in order, are exactly the input records. -/
theorem cfgPassFrom_map_card (cfg : Config) (isFront : Bool) (l : List Card) :
    ∀ i, (cfgPassFrom cfg isFront i l).map Event.card = l := by
  induction l with
  | nil => intro i; rfl
  | cons c rest ih => intro i; simp [cfgPassFrom, ih (i + 1)]

/-- The page-break flags of the loop started at `i` are the break condition
evaluated on the loop counters `i, i+1, …`. -/
theorem cfgPassFrom_map_pageBreak (cfg : Config) (isFront : Bool) (l : List Card) :
    ∀ i, (cfgPassFrom cfg isFront i l).map Event.pageBreak
      = (List.range' i l.length).map cfg.pageBreakAt := by
  induction l with
  | nil => intro i; rfl
  | cons c rest ih =>
      intro i
      simp [cfgPassFrom, List.range'_succ, ih (i + 1)]

/-- Counting the breaks emitted by the loop from counter `i` over `l`:
together with the pages already completed before `i`, they are the pages
completed at `i + l.length`. -/
theorem cfgPassFrom_countP (cfg : Config) (isFront : Bool) (l : List Card) :
    ∀ i, (cfgPassFrom cfg isFront i l).countP Event.pageBreak
        + i / cfg.totalPerPage
      = (i + l.length) / cfg.totalPerPage := by
  induction l with
  | nil => intro i; simp [cfgPassFrom]
  | cons c rest ih =>
      intro i
      have ih' := ih (i + 1)
      have hsucc := Nat.succ_div i cfg.totalPerPage
      have hite : (if cfg.pageBreakAt i = true then 1 else 0)
          = (if cfg.totalPerPage ∣ (i + 1) then 1 else 0) := by
        by_cases h : (i + 1) % cfg.totalPerPage = 0
        · have hd : cfg.totalPerPage ∣ (i + 1) := Nat.dvd_iff_mod_eq_zero.mpr h
          simp [Config.pageBreakAt, h, hd]
        · have hd : ¬ cfg.totalPerPage ∣ (i + 1) := fun hd =>
            h (Nat.dvd_iff_mod_eq_zero.mp hd)
          simp [Config.pageBreakAt, h, hd]
      rw [show cfgPassFrom cfg isFront i (c :: rest)
            = ⟨c, cfg.place isFront i, cfg.pageBreakAt i⟩ ::
              cfgPassFrom cfg isFront (i + 1) rest from rfl,
        List.countP_cons, List.length_cons,
        show Event.pageBreak ⟨c, cfg.place isFront i, cfg.pageBreakAt i⟩
            = cfg.pageBreakAt i from rfl,
        show i + (rest.length + 1) = i + 1 + rest.length from by omega,
        ← ih', hsucc, hite]
      omega

/-- The page-break flag of the last event of a nonempty pass started at `i`
is the break condition at the last loop counter `i + l.length - 1`. -/
theorem cfgPassFrom_getLast (cfg : Config) (isFront : Bool) (l : List Card) :
    ∀ i, l ≠ [] → ((cfgPassFrom cfg isFront i l).getLast?).map Event.pageBreak
      = some (cfg.pageBreakAt (i + l.length - 1)) := by
  induction l with
  | nil => intro i h; exact absurd rfl h
  | cons c rest ih =>
      intro i _
      cases rest with
      | nil => simp [cfgPassFrom]
      | cons c' rest' =>
          have h2 : cfgPassFrom cfg isFront i (c :: c' :: rest')
              = ⟨c, cfg.place isFront i, cfg.pageBreakAt i⟩ ::
                ⟨c', cfg.place isFront (i + 1), cfg.pageBreakAt (i + 1)⟩ ::
                cfgPassFrom cfg isFront (i + 2) rest' := rfl
          have h3 : cfgPassFrom cfg isFront (i + 1) (c' :: rest')
              = ⟨c', cfg.place isFront (i + 1), cfg.pageBreakAt (i + 1)⟩ ::
                cfgPassFrom cfg isFront (i + 2) rest' := rfl
          rw [h2, List.getLast?_cons_cons, ← h3,
            ih (i + 1) (by simp)]
          have harr : i + 1 + (c' :: rest').length - 1
              = i + (c :: c' :: rest').length - 1 := by
            simp only [List.length_cons]; omega
          rw [harr]

/-- `paginateAux` with enough fuel flattens back to the input list. -/
theorem paginateAux_flatten (P : Nat) (hP : 1 ≤ P) :
    ∀ (fuel : Nat) (l : List Card), l.length ≤ fuel →
      (paginateAux P fuel l).flatten = l := by
  intro fuel
  induction fuel with
  | zero =>
      intro l hl
      have : l = [] := List.length_eq_zero.mp (Nat.le_zero.mp hl)
      subst this
      rfl
  | succ fuel ih =>
      intro l hl
      cases l with
      | nil => rfl
      | cons c rest =>
          have hl' : rest.length + 1 ≤ fuel + 1 := by simpa using hl
          have hstep : paginateAux P (fuel + 1) (c :: rest)
              = (c :: rest).take P :: paginateAux P fuel ((c :: rest).drop P) := by
            simp [paginateAux]
          have hdrop : ((c :: rest).drop P).length ≤ fuel := by
            simp only [List.length_drop, List.length_cons]
            omega
          rw [hstep, List.flatten_cons, ih _ hdrop]
          exact List.take_append_drop P (c :: rest)

/-- A `filterMap` whose function is an if-then-some-else-none is a `filter`
followed by a `map`. -/
theorem filterMap_ite (p : RawRow → Bool) (g : RawRow → Card)
    (f : RawRow → Option Card) (hf : ∀ r, f r = if p r then some (g r) else none) :
    ∀ l : List RawRow, l.filterMap f = (l.filter p).map g := by
  intro l
  induction l with
  | nil => simp
  | cons r rest ih =>
      rw [List.filterMap_cons, List.filter_cons, hf r]
      by_cases h : p r = true
      · simp [h, ih]
      · simp [h, ih]

/-! ### Claim theorems about the pass, pagination and the loader -/

/-- **C2.** The page-break signal of a pass is emitted exactly at the indices
`i` with `(i + 1) % total_per_page == 0`, and the sequence of page-break
flags of a pass over the same record sequence is identical on the two sides:
the break condition does not depend on the side. -/
theorem page_break_alignment (isFront : Bool) (cards : List Card) :
    (create_flashcard_page isFront cards).map Event.pageBreak
        = (List.range cards.length).map (fun i => (i + 1) % total_per_page == 0) ∧
    (create_flashcard_page isFront cards).map Event.pageBreak
        = (create_flashcard_page (!isFront) cards).map Event.pageBreak := by
  have key : ∀ b : Bool, (create_flashcard_page b cards).map Event.pageBreak
      = (List.range cards.length).map (fun i => (i + 1) % total_per_page == 0) := by
    intro b
    rw [create_flashcard_page, createFlashcardPageCfg,
      cfgPassFrom_map_pageBreak defaultConfig b cards 0, List.range_eq_range']
    rfl
  exact ⟨key isFront, (key isFront).trans (key (!isFront)).symm⟩

/-- **C8.** A single pass hands each record to the renderer exactly once, in
input order (the drawn records are the input sequence); concatenating the
paginator's groups reconstructs the input for any `cardsPerPage ≥ 1`; the
empty sequence yields an empty pass (zero placements, zero breaks) and is
not an error. -/
theorem pagination_coverage (isFront : Bool) (cards : List Card) :
    (create_flashcard_page isFront cards).map Event.card = cards ∧
    (∀ P : Nat, 1 ≤ P → (paginate P cards).flatten = cards) ∧
    create_flashcard_page isFront ([] : List Card) = [] := by
  refine ⟨cfgPassFrom_map_card defaultConfig isFront cards 0, ?_, rfl⟩
  intro P hP
  exact paginateAux_flatten P hP cards.length cards le_rfl

/-- Witness for C8 on a concrete two-record sequence with `cardsPerPage = 1`. -/
theorem pagination_coverage_witness :
    (create_flashcard_page true [⟨"q1", "a1", "t"⟩, ⟨"q2", "a2", ""⟩]).map Event.card
        = [⟨"q1", "a1", "t"⟩, ⟨"q2", "a2", ""⟩] ∧
    (paginate 1 [⟨"q1", "a1", "t"⟩, ⟨"q2", "a2", ""⟩]).flatten
        = [⟨"q1", "a1", "t"⟩, ⟨"q2", "a2", ""⟩] ∧
    create_flashcard_page true ([] : List Card) = [] :=
  ⟨(pagination_coverage true [⟨"q1", "a1", "t"⟩, ⟨"q2", "a2", ""⟩]).1,
   (pagination_coverage true [⟨"q1", "a1", "t"⟩, ⟨"q2", "a2", ""⟩]).2.1 1
     (by decide),
   (pagination_coverage true [⟨"q1", "a1", "t"⟩, ⟨"q2", "a2", ""⟩]).2.2⟩

/-- **C9.** Over any record sequence, a pass emits exactly
`length / total_per_page` page breaks, and when the (nonzero) length is an
exact multiple of `total_per_page` the flag of the very last emitted event is
a page break: a trailing break follows the final full page. -/
theorem trailing_page_break (isFront : Bool) (cards : List Card) :
    (create_flashcard_page isFront cards).countP Event.pageBreak
        = cards.length / total_per_page ∧
    (cards.length % total_per_page = 0 → cards ≠ [] →
      ((create_flashcard_page isFront cards).getLast?).map Event.pageBreak
        = some true) := by
  constructor
  · have h := cfgPassFrom_countP defaultConfig isFront cards 0
    rw [Nat.zero_div, Nat.add_zero, Nat.zero_add] at h
    exact h
  · intro hmod hne
    rw [create_flashcard_page, createFlashcardPageCfg,
      cfgPassFrom_getLast defaultConfig isFront cards 0 hne,
      Nat.zero_add]
    have hlen : 1 ≤ cards.length := List.length_pos.mpr hne
    have harr : cards.length - 1 + 1 = cards.length := by omega
    simp only [Config.pageBreakAt, Option.some.injEq, harr, beq_iff_eq]
    exact hmod

/-- Witness for C9 on 18 records (one exactly full page). -/
theorem trailing_page_break_witness :
    (create_flashcard_page true (List.replicate 18 ⟨"a", "b", ""⟩)).countP
        Event.pageBreak
      = (List.replicate 18 (⟨"a", "b", ""⟩ : Card)).length / total_per_page ∧
    ((create_flashcard_page true (List.replicate 18 ⟨"a", "b", ""⟩)).getLast?).map
        Event.pageBreak
      = some true :=
  ⟨(trailing_page_break true (List.replicate 18 ⟨"a", "b", ""⟩)).1,
   (trailing_page_break true (List.replicate 18 ⟨"a", "b", ""⟩)).2
     (by decide) (by decide)⟩

/-- **C7, counterexample.** With the card width set to the non-positive value
-1 (all other constants unchanged), the pass still computes a placement for
a record — it does not refuse the configuration, signal any error, or stop
before placement: the code has no configuration validation at all. -/
theorem placement_computed_invalid_config :
    createFlashcardPageCfg { defaultConfig with cardWidth := -1 } true
        [⟨"q", "a", ""⟩]
      = [⟨⟨"q", "a", ""⟩, ⟨0, 0, 1, 237/10⟩, false⟩] := by
  simp only [createFlashcardPageCfg, cfgPassFrom, Config.place,
    Config.pageBreakAt, Config.totalPerPage, defaultConfig]
  norm_num [Placement.mk.injEq]

/-- **C7, amended.** The code never signals a configuration error: the drawing
pass is total, computing one placement per record under every configuration —
including ones with non-positive page or card dimensions — and the
module-constant pass is exactly the configurable pass at the hard-coded
constants; no validation or clamping step exists in the code. -/
theorem no_config_validation (cfg : Config) (isFront : Bool) (cards : List Card) :
    (createFlashcardPageCfg cfg isFront cards).length = cards.length ∧
    create_flashcard_page isFront cards
      = createFlashcardPageCfg defaultConfig isFront cards :=
  ⟨cfgPassFrom_length cfg isFront cards 0, rfl⟩

/-- **C10.** The loader retains exactly the rows with at least one non-empty
side after stripping (a row is discarded only when both stripped sides are
empty), every retained record carries its whitespace-stripped fields in input
order, and a missing tag column yields the empty string as the tag of every
retained record. -/
theorem loader_strip_filter (hasTag : Bool) (rows : List RawRow) :
    load_flashcards hasTag rows
        = (rows.filter
            (fun r => !(strip r.latoA == "" && strip r.latoB == ""))).map
            (fun r => ⟨strip r.latoA, strip r.latoB,
              if hasTag then strip r.tag else ""⟩) ∧
    (hasTag = false → ∀ c ∈ load_flashcards hasTag rows, c.tag = "") := by
  constructor
  · refine filterMap_ite _ _ _ ?_ rows
    intro r
    by_cases h : strip r.latoA = "" ∧ strip r.latoB = ""
    · simp [loadRow, h.1, h.2]
    · have hcond : (!(strip r.latoA == "" && strip r.latoB == "")) = true := by
        rcases not_and_or.mp h with h1 | h1 <;> simp [h1]
      simp [loadRow, if_neg h, hcond]
  · intro htag c hc
    subst htag
    rcases List.mem_filterMap.mp hc with ⟨r, _, hr⟩
    by_cases h : strip r.latoA = "" ∧ strip r.latoB = ""
    · simp [loadRow, if_pos h] at hr
    · simp only [loadRow, if_neg h, Option.some.injEq, Bool.false_eq_true,
        if_neg (by simp : ¬ (false = true))] at hr
      rw [← hr]
      simp

/-- Two concrete CSV rows: one with a blank side B but non-blank side A, one
with both sides blank after stripping. -/
def demoRows : List RawRow := [⟨" a ", " ", "x"⟩, ⟨" ", "", "y"⟩]

/-- Witness for C10 on `demoRows` without a tag column: the first row is
retained with stripped fields and empty tag; the all-blank row is
discarded. -/
theorem loader_strip_filter_witness :
    load_flashcards false demoRows
        = (demoRows.filter
            (fun r => !(strip r.latoA == "" && strip r.latoB == ""))).map
            (fun r => ⟨strip r.latoA, strip r.latoB,
              if false then strip r.tag else ""⟩) ∧
    ∀ c ∈ load_flashcards false demoRows, c.tag = "" :=
  ⟨(loader_strip_filter false demoRows).1,
   (loader_strip_filter false demoRows).2 rfl⟩

end StudyCards
